import Mathlib

/-!
Verification of the WEBM buffer splitter (voice_stream/audio/audio_webm.py).

The byte buffer is modelled as `List ℕ` (each entry one byte value), Python
integers as `ℤ` where negatives can occur and `ℕ` otherwise.  Fallible Python
operations (IndexError, TypeError) are modelled with `Option`/`Except`, and
the unbounded `while True` loop of `find_last_webm_simple_block` is modelled
with explicit fuel, `none` standing for a run that exhausts any finite fuel.
-/

/-- A packet yielded by the external demux capability: byte size, keyframe
flag and optional decode/presentation timestamps. -/
structure Packet where
  size : ℕ
  is_keyframe : Bool
  dts : Option ℤ
  pts : Option ℤ
deriving DecidableEq

/-- Python runtime errors reachable in the modelled fragments. -/
inductive PyError where
  | typeError
  | indexError
deriving DecidableEq

/-- Mirrors the leading-bit loop of `read_ebml_size`: starting from
`num_bytes = 1`, walk the listed bit positions of the first byte, stopping at
the first set bit and adding one for every leading zero bit seen. -/
def numBytesAux (firstByte : ℕ) : List ℕ → ℕ → ℕ
  | [], n => n
  | bit :: rest, n =>
    if (firstByte >>> bit) &&& 1 = 1 then n else numBytesAux firstByte rest (n + 1)

/-- Width in bytes of the EBML size field, as decoded from its first byte by
the `for bit in range(7, -1, -1)` loop of `read_ebml_size`. -/
def ebmlNumBytes (firstByte : ℕ) : ℕ :=
  numBytesAux firstByte [7, 6, 5, 4, 3, 2, 1, 0] 1

/-- Mirrors the accumulation loop of `read_ebml_size`: the first byte is
masked with `0xFF >>> (num_bytes + 1)`, every later byte is shifted in
big-endian. -/
def assembleSize (num_bytes : ℕ) : List ℕ → ℕ
  | [] => 0
  | b :: rest =>
    rest.foldl (fun acc c => (acc <<< 8) ||| c) (b &&& (0xFF >>> (num_bytes + 1)))

/-- Embedding of `read_ebml_size(data, position, max_bytes)`.  The outer
`none` models an IndexError on the first-byte access; an inner `none` models
the Python `None` returned for an indeterminate size (field wider than
`max_bytes`, or truncated data). -/
def read_ebml_size (data : List ℕ) (position : ℕ) (max_bytes : ℕ) :
    Option (Option ℕ × ℕ) :=
  match data[position]? with
  | none => none
  | some first_byte =>
    let num_bytes := ebmlNumBytes first_byte
    if num_bytes > max_bytes then some (none, num_bytes)
    else if num_bytes = 1 then some (some (first_byte &&& 0x7F), 1)
    else if data.length < position + num_bytes then some (none, num_bytes)
    else some (some (assembleSize num_bytes ((data.drop position).take num_bytes)), num_bytes)

/-- Accumulation loop following the words of the spec (section 4.1): mask out
exactly the `num_bytes` leading marker bits of the first byte, keeping its
remaining low bits.  Written only to compare against `assembleSize`. -/
def assembleSizeSpec (num_bytes : ℕ) : List ℕ → ℕ
  | [] => 0
  | b :: rest =>
    rest.foldl (fun acc c => (acc <<< 8) ||| c) (b &&& (0xFF >>> num_bytes))

/-- Modelled from the spec, section 4.1: the variable-length integer decoder
as the spec words it ("mask out the numBytes leading marker bits from the
first byte and assemble the remaining bits big-endian"), for comparison with
the source's `read_ebml_size`. -/
def readSizeSpec (data : List ℕ) (position : ℕ) (max_bytes : ℕ) :
    Option (Option ℕ × ℕ) :=
  match data[position]? with
  | none => none
  | some first_byte =>
    let num_bytes := ebmlNumBytes first_byte
    if num_bytes > max_bytes then some (none, num_bytes)
    else if num_bytes = 1 then some (some (first_byte &&& 0x7F), 1)
    else if data.length < position + num_bytes then some (none, num_bytes)
    else some (some (assembleSizeSpec num_bytes ((data.drop position).take num_bytes)), num_bytes)

/-- Outcome of `find_last_webm_simple_block`: the bare `-1` return, the
`(position, size)` tuple return, or an IndexError escaping from an inner
byte access. -/
inductive FindOutcome where
  | notFound
  | found (pos sz : ℤ)
  | indexError
deriving DecidableEq

/-- Embedding of `data.rfind(b"\xA3", 0, endPos)` with Python slice
semantics: a negative end counts back from the end of the buffer (clamped at
0), an end beyond the buffer is clamped to its length; the result is the
largest index below the clamped end holding byte 0xA3, or -1. -/
def pyRfindEnd (data : List ℕ) (endPos : ℤ) : ℤ :=
  if endPos < 0 then max ((data.length : ℤ) + endPos) 0
  else min endPos (data.length : ℤ)

/-- The backward search itself: largest index below the clamped end holding
byte 0xA3, else -1. -/
def pyRfindA3 (data : List ℕ) (endPos : ℤ) : ℤ :=
  match (List.range (pyRfindEnd data endPos).toNat).reverse.find?
      (fun i => decide (data[i]? = some 0xA3)) with
  | some i => (i : ℤ)
  | none => -1

/-- One fuelled unfolding of the `while True` loop of
`find_last_webm_simple_block` (cursor `pos`, fixed search end `l`); `none`
models running out of fuel. -/
def findLoop (data : List ℕ) (l : ℤ) : ℕ → ℤ → Option FindOutcome
  | 0, _ => none
  | fuel + 1, pos =>
    let p := pyRfindA3 data pos
    if p = -1 then some .notFound
    else if p + 5 < l then
      match read_ebml_size data (p.toNat + 1) 2 with
      | none => some .indexError
      | some (none, _) => findLoop data l fuel (p - 1)
      | some (some size, size_bytes) =>
        match read_ebml_size data (p.toNat + 1 + size_bytes) 2 with
        | none => some .indexError
        | some (none, _) => findLoop data l fuel (p - 1)
        | some (some track, track_bytes) =>
          if track < 5 then
            if p + 1 + (size_bytes : ℤ) + (track_bytes : ℤ) + 2 < l then
              match data[(p + 1 + (size_bytes : ℤ) + (track_bytes : ℤ) + 2).toNat]? with
              | none => some .indexError
              | some flag =>
                if flag = 0x80 ∨ flag = 0x00 then
                  some (.found p ((size : ℤ) + 1 + (size_bytes : ℤ)))
                else findLoop data l fuel (p - 1)
            else findLoop data l fuel (p - 1)
          else findLoop data l fuel (p - 1)
    else findLoop data l fuel (p - 1)

/-- Python `l = end or len(data)`: both `None` and `0` are falsy and give the
buffer length; every other end value (negative ones included) is used as
given. -/
def effectiveEnd (data : List ℕ) (endArg : Option ℤ) : ℤ :=
  match endArg with
  | none => (data.length : ℤ)
  | some e => if e = 0 then (data.length : ℤ) else e

/-- Fuelled embedding of `find_last_webm_simple_block(data, end)`. -/
def find_last_webm_simple_block (data : List ℕ) (endArg : Option ℤ) (fuel : ℕ) :
    Option FindOutcome :=
  findLoop data (effectiveEnd data endArg) fuel (effectiveEnd data endArg)

/-- The first statement of `split_webm_buffer`:
`last_start, size = find_last_webm_simple_block(audio)`.  Unpacking the bare
int `-1` raises a TypeError; the tuple return unpacks. -/
def split_webm_buffer_unpack (audio : List ℕ) (fuel : ℕ) :
    Option (Except PyError (ℤ × ℤ)) :=
  match find_last_webm_simple_block audio none fuel with
  | none => none
  | some .indexError => some (.error .indexError)
  | some .notFound => some (.error .typeError)
  | some (.found p s) => some (.ok (p, s))

/-- Embedding of the packet loop of `split_webm_buffer` (the keyframe/packet
scanner): state is the accumulator `packets_since_last_keyframe`, the running
`byte_ptr` and `key_frame_start`. -/
def scanPacketsAux (split_before : ℤ) :
    List Packet → List Packet → ℕ → ℤ → List Packet × ℕ × ℤ
  | [], acc, byte_ptr, kfs => (acc, byte_ptr, kfs)
  | p :: rest, acc, byte_ptr, kfs =>
    if p.is_keyframe ∧ (byte_ptr : ℤ) < split_before then
      scanPacketsAux split_before rest [p] (byte_ptr + p.size) (byte_ptr : ℤ)
    else
      scanPacketsAux split_before rest (acc ++ [p]) (byte_ptr + p.size) kfs

/-- The packet selection computed by `split_webm_buffer`: the packets kept
since the last keyframe before the split point, together with that keyframe's
byte offset (`-1` when no such keyframe was ever seen). -/
def selectPacketsForSplit (packets : List Packet) (split_before : ℤ) :
    List Packet × ℤ :=
  let r := scanPacketsAux split_before packets [] 0 (-1)
  (r.1, r.2.2)

/-- Decides that no packet of the list is a keyframe at a running byte offset
(starting from `byte_ptr`) strictly below `split_before`. -/
def noEarlyKeyframe (split_before : ℤ) : ℕ → List Packet → Bool
  | _, [] => true
  | byte_ptr, p :: rest =>
    (!(p.is_keyframe && decide ((byte_ptr : ℤ) < split_before))) &&
      noEarlyKeyframe split_before (byte_ptr + p.size) rest

/-- Embedding of the timestamp adjustment applied to one packet inside the
mux loop of `split_webm_buffer`: the guard tests only that the packet's `dts`
is present; both `dts` and `pts` are then rebased, and a missing operand in
either subtraction raises a TypeError. -/
def adjustPacket (adjust : Bool) (dts_start pts_start : Option ℤ) (p : Packet) :
    Except PyError Packet :=
  if adjust ∧ p.dts ≠ none then
    match p.dts, dts_start with
    | some d, some d0 =>
      match p.pts, pts_start with
      | some q, some q0 => .ok { p with dts := some (d - d0), pts := some (q - q0) }
      | _, _ => .error .typeError
    | _, _ => .error .typeError
  else .ok p

/-- The mux loop over the selected packets, in order; the first error
aborts. -/
def muxLoop (adjust : Bool) (dts_start pts_start : Option ℤ) :
    List Packet → Except PyError (List Packet)
  | [] => .ok []
  | p :: rest =>
    match adjustPacket adjust dts_start pts_start p with
    | .error e => .error e
    | .ok p2 =>
      match muxLoop adjust dts_start pts_start rest with
      | .error e => .error e
      | .ok rest2 => .ok (p2 :: rest2)

/-- Embedding of the tail of `split_webm_buffer`: read the first selected
packet's `dts`/`pts` (IndexError on an empty selection), then rewrite each
packet in order. -/
def rebasePackets (adjust : Bool) (packets : List Packet) :
    Except PyError (List Packet) :=
  match packets with
  | [] => .error .indexError
  | p0 :: _ => muxLoop adjust p0.dts p0.pts packets

/-- Helper: with the adjust flag off, the mux loop rewrites nothing. -/
lemma muxLoop_false (d q : Option ℤ) :
    ∀ ps : List Packet, muxLoop false d q ps = .ok ps := by
  intro ps
  induction ps with
  | nil => rfl
  | cons p rest ih => simp [muxLoop, adjustPacket, ih]

/-- Helper: when no keyframe occurs at an offset below the split point, the
scanner's accumulator is never reset and `key_frame_start` is never set. -/
lemma scanPacketsAux_no_early (sb : ℤ) :
    ∀ (ps acc : List Packet) (b : ℕ) (k : ℤ),
      noEarlyKeyframe sb b ps = true →
      ∃ b2, scanPacketsAux sb ps acc b k = (acc ++ ps, b2, k) := by
  intro ps
  induction ps with
  | nil => intro acc b k _; exact ⟨b, by simp [scanPacketsAux]⟩
  | cons p rest ih =>
    intro acc b k h
    simp only [noEarlyKeyframe, Bool.and_eq_true, Bool.not_eq_true',
      Bool.and_eq_false_iff, decide_eq_false_iff_not] at h
    rw [scanPacketsAux, if_neg ?_]
    · obtain ⟨b2, h2⟩ := ih (acc ++ [p]) (b + p.size) k h.2
      exact ⟨b2, by rw [h2]; simp⟩
    · rcases h.1 with hk | hk
      · exact fun hc => by rw [hk] at hc; exact Bool.false_ne_true hc.1
      · exact fun hc => hk hc.2

/-- C1 counterexample: a demuxed stream consisting of one non-keyframe packet
with `split_before = 5` has no keyframe before the split point, yet the
scanner of `split_webm_buffer` yields a normal selection containing every
packet with `key_frame_start = -1` (its result type has no failure outcome at
all), and the subsequent mux loop completes and produces output both with and
without timestamp adjustment — the code never raises `NoKeyframeFound`. -/
theorem select_no_keyframe_no_failure :
    selectPacketsForSplit [⟨7, false, some 3, some 3⟩] 5 =
      ([⟨7, false, some 3, some 3⟩], -1) ∧
    rebasePackets false [⟨7, false, some 3, some 3⟩] =
      .ok [⟨7, false, some 3, some 3⟩] ∧
    rebasePackets true [⟨7, false, some 3, some 3⟩] =
      .ok [⟨7, false, some 0, some 0⟩] :=
  ⟨rfl, rfl, rfl⟩

/-- C1 amended: when the demuxed stream has no keyframe packet at a byte
offset strictly below `split_before`, `split_webm_buffer` does not fail:
its scanner silently keeps every packet (the accumulator is never reset) and
leaves `key_frame_start = -1`, and the split proceeds to mux this
keyframe-less selection. -/
theorem select_no_early_keyframe_keeps_all (packets : List Packet) (sb : ℤ)
    (h : noEarlyKeyframe sb 0 packets = true) :
    selectPacketsForSplit packets sb = (packets, -1) := by
  obtain ⟨b2, h2⟩ := scanPacketsAux_no_early sb packets [] 0 (-1) h
  simp [selectPacketsForSplit, h2]

/-- C1 witness: the amended statement evaluated on a concrete keyframe-less
stream. -/
theorem select_no_early_keyframe_keeps_all_witness :
    noEarlyKeyframe 5 0 [⟨7, false, some 0, some 0⟩] = true ∧
    selectPacketsForSplit [⟨7, false, some 0, some 0⟩] 5 =
      ([⟨7, false, some 0, some 0⟩], -1) :=
  ⟨by decide, select_no_early_keyframe_keeps_all [⟨7, false, some 0, some 0⟩] 5 (by decide)⟩

/-- C2: the source decoder masks `0xFF >>> (num_bytes + 1)` — one bit more
than the `num_bytes` marker bits of the EBML encoding the function documents.
On the two-byte field `[0x60, 0x01]` (first byte `01100000`) the code drops
bit 5 of the first byte and returns value 1, while the decoder written from
the spec's words returns 8193; the single-byte vector `0x82` is unaffected
and decodes to (2, 1) in both. -/
theorem read_ebml_size_mask_bug :
    read_ebml_size [0x60, 0x01] 0 2 = some (some 1, 2) ∧
    readSizeSpec [0x60, 0x01] 0 2 = some (some 8193, 2) ∧
    read_ebml_size [0x82] 0 2 = some (some 2, 1) ∧
    read_ebml_size [0x82] 0 2 = readSizeSpec [0x82] 0 2 :=
  ⟨by decide, by decide, by decide, by decide⟩

/-- C5 counterexample: with `adjust_timestamps = true`, a selection whose
single packet has a `dts` but no `pts` makes the mux loop of
`split_webm_buffer` raise a TypeError (`packet.pts - pts_start` with `None`
operands), so an absent timestamp is not left untouched and does cause an
error. -/
theorem rebase_absent_pts_errors :
    rebasePackets true [⟨1, true, some 0, none⟩] = .error .typeError := rfl

/-- C5 amended: with `adjust_timestamps` false every packet is preserved; with
it true the guard tests only that the packet's `dts` is present — a packet
with absent `dts` is left untouched, a packet with both timestamps present is
rebased against the first packet's `dts`/`pts` (the first packet itself
rebasing to 0/0), and a packet with `dts` present but `pts` absent raises a
TypeError. -/
theorem rebase_guard_on_dts (p0 : Packet) (ps : List Packet) :
    rebasePackets false (p0 :: ps) = .ok (p0 :: ps) ∧
    (∀ p : Packet, p.dts = none → adjustPacket true p0.dts p0.pts p = .ok p) ∧
    (∀ d q : ℤ, p0.dts = some d → p0.pts = some q →
      adjustPacket true p0.dts p0.pts p0 = .ok { p0 with dts := some 0, pts := some 0 }) ∧
    (∀ (p : Packet) (d0 q0 d : ℤ), p0.dts = some d0 → p0.pts = some q0 →
      p.dts = some d → p.pts = none →
      adjustPacket true p0.dts p0.pts p = .error .typeError) := by
  refine ⟨?_, ?_, ?_, ?_⟩
  · show muxLoop false p0.dts p0.pts (p0 :: ps) = .ok (p0 :: ps)
    exact muxLoop_false p0.dts p0.pts (p0 :: ps)
  · intro p hp
    simp [adjustPacket, hp]
  · intro d q hd hq
    simp [adjustPacket, hd, hq, sub_self]
  · intro p d0 q0 d hd0 hq0 hd hp
    simp [adjustPacket, hd0, hq0, hd, hp]

/-- C5 witness: the amended statement evaluated on concrete packets. -/
theorem rebase_guard_on_dts_witness :
    rebasePackets false [⟨1, true, some 10, some 20⟩, ⟨2, false, none, none⟩] =
      .ok [⟨1, true, some 10, some 20⟩, ⟨2, false, none, none⟩] ∧
    adjustPacket true (some 10) (some 20) ⟨2, false, none, none⟩ =
      .ok ⟨2, false, none, none⟩ ∧
    adjustPacket true (some 10) (some 20) ⟨1, true, some 10, some 20⟩ =
      .ok ⟨1, true, some 0, some 0⟩ ∧
    adjustPacket true (some 10) (some 20) ⟨3, false, some 7, none⟩ =
      .error .typeError := by
  have h := rebase_guard_on_dts ⟨1, true, some 10, some 20⟩ [⟨2, false, none, none⟩]
  exact ⟨h.1, h.2.1 ⟨2, false, none, none⟩ rfl, by simpa using h.2.2.1 10 20 rfl rfl,
    h.2.2.2 ⟨3, false, some 7, none⟩ 10 20 7 rfl rfl rfl rfl⟩

/-- C9: when the backward locator reports not-found it returns the bare int
`-1` while success returns a 2-tuple; the call site
`last_start, size = find_last_webm_simple_block(audio)` in
`split_webm_buffer` unpacks two values unconditionally, so the not-found
outcome surfaces as a TypeError, not as a named error. -/
theorem split_unpack_not_found_type_error (audio : List ℕ) (fuel : ℕ)
    (h : find_last_webm_simple_block audio none fuel = some .notFound) :
    split_webm_buffer_unpack audio fuel = some (.error .typeError) := by
  unfold split_webm_buffer_unpack
  rw [h]

/-- C9 witness: a buffer with no 0xA3 byte at all. -/
theorem split_unpack_not_found_type_error_witness :
    find_last_webm_simple_block [0x00] none 1 = some .notFound ∧
    split_webm_buffer_unpack [0x00] 1 = some (.error .typeError) :=
  ⟨rfl, split_unpack_not_found_type_error [0x00] 1 rfl⟩

/-- C10: because the search end is computed as `end or len(data)` and `0` is
falsy in Python, an explicit end of 0 behaves exactly like the default
`None`: the whole buffer is searched. -/
theorem find_last_end_zero_eq_default (data : List ℕ) (fuel : ℕ) :
    find_last_webm_simple_block data (some 0) fuel =
      find_last_webm_simple_block data none fuel := rfl

/-- Helper: a successful rfind result is a nonnegative index whose byte is
0xA3. -/
lemma pyRfindA3_spec (data : List ℕ) (endPos : ℤ) :
    pyRfindA3 data endPos = -1 ∨
      (0 ≤ pyRfindA3 data endPos ∧
        data[(pyRfindA3 data endPos).toNat]? = some 0xA3) := by
  unfold pyRfindA3
  cases hfind : (List.range (pyRfindEnd data endPos).toNat).reverse.find?
      (fun i => decide (data[i]? = some 0xA3)) with
  | none => exact Or.inl rfl
  | some i =>
    refine Or.inr ⟨by positivity, ?_⟩
    have hp := List.find?_some hfind
    simp only [decide_eq_true_eq] at hp
    simpa using hp

/-- Helper: everything the loop of `find_last_webm_simple_block` has checked
when it returns a `(position, size)` tuple. -/
lemma findLoop_found_spec (data : List ℕ) (l : ℤ) :
    ∀ (fuel : ℕ) (pos p t : ℤ), findLoop data l fuel pos = some (.found p t) →
      0 ≤ p ∧ p + 5 < l ∧ data[p.toNat]? = some 0xA3 ∧
      ∃ s w track tw flag,
        read_ebml_size data (p.toNat + 1) 2 = some (some s, w) ∧
        read_ebml_size data (p.toNat + 1 + w) 2 = some (some track, tw) ∧
        track < 5 ∧
        p + 1 + (w : ℤ) + (tw : ℤ) + 2 < l ∧
        data[(p + 1 + (w : ℤ) + (tw : ℤ) + 2).toNat]? = some flag ∧
        (flag = 0x80 ∨ flag = 0x00) ∧
        t = (s : ℤ) + 1 + (w : ℤ) := by
  intro fuel
  induction fuel with
  | zero => intro pos p t h; simp [findLoop] at h
  | succ n ih =>
    intro pos p t h
    simp only [findLoop] at h
    split at h
    · simp at h
    · rename_i hq1
      split at h
      · rename_i hq5
        split at h
        · simp at h
        · exact ih _ _ _ h
        · rename_i s w hr1
          split at h
          · simp at h
          · exact ih _ _ _ h
          · rename_i track tw hr2
            split at h
            · rename_i ht5
              split at h
              · rename_i hfl
                split at h
                · simp at h
                · rename_i flag hflag
                  split at h
                  · rename_i hfv
                    simp only [Option.some.injEq, FindOutcome.found.injEq] at h
                    obtain ⟨hp, ht⟩ := h
                    subst hp
                    rcases pyRfindA3_spec data pos with hmiss | ⟨hpos, hmem⟩
                    · exact absurd hmiss hq1
                    · exact ⟨hpos, hq5, hmem, s, w, track, tw, flag, hr1, hr2,
                        ht5, hfl, hflag, hfv, ht.symm⟩
                  · exact ih _ _ _ h
              · exact ih _ _ _ h
            · exact ih _ _ _ h
      · exact ih _ _ _ h

/-- C6: whenever the backward locator succeeds, the byte at the returned
position is the marker 0xA3, the size field just after it decodes with
max width 2 to some `(s, w)`, the returned total is `s + 1 + w`, and the
track-number field just after the size field decodes to a value below 5. -/
theorem find_last_found_structure (data : List ℕ) (endArg : Option ℤ) (fuel : ℕ)
    (p t : ℤ) (h : find_last_webm_simple_block data endArg fuel = some (.found p t)) :
    data[p.toNat]? = some 0xA3 ∧
    ∃ s w track tw,
      read_ebml_size data (p.toNat + 1) 2 = some (some s, w) ∧
      t = (s : ℤ) + 1 + (w : ℤ) ∧
      read_ebml_size data (p.toNat + 1 + w) 2 = some (some track, tw) ∧
      track < 5 := by
  obtain ⟨-, -, hmark, s, w, track, tw, flag, hr1, hr2, ht5, -, -, -, ht⟩ :=
    findLoop_found_spec data (effectiveEnd data endArg) fuel (effectiveEnd data endArg) p t h
  exact ⟨hmark, s, w, track, tw, hr1, ht, hr2, ht5⟩

/-- C6 witness: a minimal valid SimpleBlock candidate. -/
theorem find_last_found_structure_witness :
    find_last_webm_simple_block [0xA3, 0x81, 0x81, 0, 0, 0x80] none 3 =
      some (.found 0 3) ∧
    (([0xA3, 0x81, 0x81, 0, 0, 0x80] : List ℕ)[((0 : ℤ)).toNat]? = some 0xA3 ∧
      ∃ s w track tw,
        read_ebml_size [0xA3, 0x81, 0x81, 0, 0, 0x80] ((0 : ℤ).toNat + 1) 2 =
          some (some s, w) ∧
        (3 : ℤ) = (s : ℤ) + 1 + (w : ℤ) ∧
        read_ebml_size [0xA3, 0x81, 0x81, 0, 0, 0x80] ((0 : ℤ).toNat + 1 + w) 2 =
          some (some track, tw) ∧
        track < 5) :=
  ⟨rfl, find_last_found_structure [0xA3, 0x81, 0x81, 0, 0, 0x80] none 3 0 3 rfl⟩

/-- C4 counterexample: on the buffer `[0xA3, 0x88, 0x81, 0x00, 0x00, 0x80]`
(length 6) the locator returns position 0 with total width 10 — the declared
size byte 0x88 (value 8) is never checked against the buffer end, so
`position + totalWidth` exceeds the buffer length. -/
theorem find_last_exceeds_buffer :
    find_last_webm_simple_block [0xA3, 0x88, 0x81, 0x00, 0x00, 0x80] none 2 =
      some (.found 0 10) ∧
    ¬((0 : ℤ) + 10 ≤ (([0xA3, 0x88, 0x81, 0x00, 0x00, 0x80] : List ℕ).length : ℤ)) :=
  ⟨rfl, by decide⟩

/-- C4 amended: the invariant the locator's checks actually enforce is
`0 ≤ position` and `position + 5 < searchEnd`; when the effective search end
does not exceed the buffer length this keeps the marker byte (and the four
bytes of header it inspects) inside the buffer, but
`position + totalWidth <= bufferLength` is not guaranteed. -/
theorem find_last_found_bounds (data : List ℕ) (endArg : Option ℤ) (fuel : ℕ)
    (p t : ℤ) (h : find_last_webm_simple_block data endArg fuel = some (.found p t))
    (hl : effectiveEnd data endArg ≤ (data.length : ℤ)) :
    0 ≤ p ∧ p + 5 < (data.length : ℤ) ∧ data[p.toNat]? = some 0xA3 := by
  obtain ⟨h0, h5, hmark, -⟩ :=
    findLoop_found_spec data (effectiveEnd data endArg) fuel (effectiveEnd data endArg) p t h
  exact ⟨h0, lt_of_lt_of_le h5 hl, hmark⟩

/-- C4 witness: a valid candidate with a two-byte size field. -/
theorem find_last_found_bounds_witness :
    find_last_webm_simple_block [0xA3, 0x40, 0x03, 0x81, 0x00, 0x00, 0x80, 0x00] none 2 =
      some (.found 0 6) ∧
    ((0 : ℤ) ≤ 0 ∧
      (0 : ℤ) + 5 < (([0xA3, 0x40, 0x03, 0x81, 0x00, 0x00, 0x80, 0x00] : List ℕ).length : ℤ) ∧
      ([0xA3, 0x40, 0x03, 0x81, 0x00, 0x00, 0x80, 0x00] : List ℕ)[((0 : ℤ)).toNat]? =
        some 0xA3) :=
  ⟨rfl, find_last_found_bounds [0xA3, 0x40, 0x03, 0x81, 0x00, 0x00, 0x80, 0x00] none 2 0 6
    rfl (by decide)⟩

/-- C3 counterexample: on `[0xA3, 0x81, 0x81, 0xFF, 0xFF, 0x80]` the byte
immediately following the decoded track-number field (index 3 = marker + size
width + track width) is 0xFF, which is neither 0x80 nor 0x00, yet the
candidate at position 0 is accepted: the code reads the flag two bytes
further, at index 5. -/
theorem find_last_accepts_nonflag_after_track :
    find_last_webm_simple_block [0xA3, 0x81, 0x81, 0xFF, 0xFF, 0x80] none 2 =
      some (.found 0 3) ∧
    ([0xA3, 0x81, 0x81, 0xFF, 0xFF, 0x80] : List ℕ)[3]? = some 0xFF ∧
    ¬((0xFF : ℕ) = 0x80 ∨ (0xFF : ℕ) = 0x00) :=
  ⟨rfl, rfl, by decide⟩

/-- C3 amended: a candidate at marker position p is accepted as a valid
SimpleBlock only if the byte located two positions after the end of the
decoded track-number field (index p + 1 + sizeWidth + trackWidth + 2) equals
0x80 or 0x00; a candidate failing that check is rejected and the backward
scan continues leftward. -/
theorem find_last_flag_check (data : List ℕ) (endArg : Option ℤ) (fuel : ℕ)
    (p t : ℤ) (h : find_last_webm_simple_block data endArg fuel = some (.found p t)) :
    ∃ s w track tw flag,
      read_ebml_size data (p.toNat + 1) 2 = some (some s, w) ∧
      read_ebml_size data (p.toNat + 1 + w) 2 = some (some track, tw) ∧
      data[(p + 1 + (w : ℤ) + (tw : ℤ) + 2).toNat]? = some flag ∧
      (flag = 0x80 ∨ flag = 0x00) := by
  obtain ⟨-, -, -, s, w, track, tw, flag, hr1, hr2, -, -, hflag, hfv, -⟩ :=
    findLoop_found_spec data (effectiveEnd data endArg) fuel (effectiveEnd data endArg) p t h
  exact ⟨s, w, track, tw, flag, hr1, hr2, hflag, hfv⟩

/-- C3 witness: a candidate whose flag byte is the non-keyframe value 0x00. -/
theorem find_last_flag_check_witness :
    find_last_webm_simple_block [0xA3, 0x81, 0x81, 0, 0, 0x00] none 2 =
      some (.found 0 3) ∧
    (∃ s w track tw flag,
      read_ebml_size [0xA3, 0x81, 0x81, 0, 0, 0x00] ((0 : ℤ).toNat + 1) 2 =
        some (some s, w) ∧
      read_ebml_size [0xA3, 0x81, 0x81, 0, 0, 0x00] ((0 : ℤ).toNat + 1 + w) 2 =
        some (some track, tw) ∧
      ([0xA3, 0x81, 0x81, 0, 0, 0x00] : List ℕ)[((0 : ℤ) + 1 + (w : ℤ) + (tw : ℤ) + 2).toNat]? =
        some flag ∧
      (flag = 0x80 ∨ flag = 0x00)) :=
  ⟨rfl, find_last_flag_check [0xA3, 0x81, 0x81, 0, 0, 0x00] none 2 0 3 rfl⟩

/-- Helper: on the buffer `[0xA3, 0x81, 0x81, 0, 0, 0x01, 0, 0, 0, 0]` the
candidate at position 0 fails the flag check (byte 0x01 at index 5), the
cursor moves to -1, and Python's rfind then re-interprets the end -1 as
length - 1 and finds position 0 again: the loop state cycles and no amount of
fuel finishes it. -/
lemma findLoop_cycles :
    ∀ fuel : ℕ,
      findLoop [0xA3, 0x81, 0x81, 0x00, 0x00, 0x01, 0x00, 0x00, 0x00, 0x00] 10 fuel (-1) =
        none := by
  intro fuel
  induction fuel with
  | zero => rfl
  | succ n ih =>
    have hstep :
        findLoop [0xA3, 0x81, 0x81, 0x00, 0x00, 0x01, 0x00, 0x00, 0x00, 0x00] 10 (n + 1)
            (-1) =
          findLoop [0xA3, 0x81, 0x81, 0x00, 0x00, 0x01, 0x00, 0x00, 0x00, 0x00] 10 n
            (-1) := rfl
    rw [hstep]
    exact ih

/-- C7: the backward scan does not always terminate.  On the 10-byte buffer
`[0xA3, 0x81, 0x81, 0, 0, 0x01, 0, 0, 0, 0]` with the default search end, the
only 0xA3 candidate (position 0) is rejected by the flag check, the cursor
becomes -1, and `data.rfind(0xA3, 0, -1)` wraps the negative end around to
`len - 1`, re-finding the same rejected candidate for ever: the fuelled model
of the loop exhausts every finite fuel. -/
theorem find_last_nonterminating :
    ∀ fuel : ℕ,
      find_last_webm_simple_block [0xA3, 0x81, 0x81, 0x00, 0x00, 0x01, 0x00, 0x00, 0x00, 0x00]
          none fuel =
        none := by
  intro fuel
  cases fuel with
  | zero => rfl
  | succ n =>
    have hstep :
        find_last_webm_simple_block
            [0xA3, 0x81, 0x81, 0x00, 0x00, 0x01, 0x00, 0x00, 0x00, 0x00] none (n + 1) =
          findLoop [0xA3, 0x81, 0x81, 0x00, 0x00, 0x01, 0x00, 0x00, 0x00, 0x00] 10 n
            (-1) := rfl
    rw [hstep]
    exact findLoop_cycles n

/-- Helper: monotonicity of the scanner's final `key_frame_start` in the
split point, generalised over the loop state. -/
lemma scanPacketsAux_kfs_mono (sb1 sb2 : ℤ) (hsb : sb1 ≤ sb2) :
    ∀ (ps acc1 acc2 : List Packet) (b : ℕ) (k1 k2 : ℤ),
      k1 ≤ k2 → k1 ≤ (b : ℤ) →
      (scanPacketsAux sb1 ps acc1 b k1).2.2 ≤ (scanPacketsAux sb2 ps acc2 b k2).2.2 := by
  intro ps
  induction ps with
  | nil => intro acc1 acc2 b k1 k2 hk _; simpa [scanPacketsAux] using hk
  | cons p rest ih =>
    intro acc1 acc2 b k1 k2 hk hkb
    by_cases h1 : p.is_keyframe ∧ (b : ℤ) < sb1
    · have h2 : p.is_keyframe ∧ (b : ℤ) < sb2 := ⟨h1.1, lt_of_lt_of_le h1.2 hsb⟩
      simp only [scanPacketsAux, if_pos h1, if_pos h2]
      exact ih _ _ _ _ _ le_rfl (by push_cast; omega)
    · by_cases h2 : p.is_keyframe ∧ (b : ℤ) < sb2
      · simp only [scanPacketsAux, if_neg h1, if_pos h2]
        exact ih _ _ _ _ _ hkb (le_trans hkb (by push_cast; omega))
      · simp only [scanPacketsAux, if_neg h1, if_neg h2]
        exact ih _ _ _ _ _ hk (le_trans hkb (by push_cast; omega))

/-- C8: the keyframe start offset selected by the packet scanner is monotone
in the split point: a larger `split_before` never selects an earlier
keyframe. -/
theorem select_keyframe_start_monotone (packets : List Packet) (sb1 sb2 : ℤ)
    (h : sb1 < sb2) :
    (selectPacketsForSplit packets sb1).2 ≤ (selectPacketsForSplit packets sb2).2 := by
  simp only [selectPacketsForSplit]
  exact scanPacketsAux_kfs_mono sb1 sb2 (le_of_lt h) packets [] [] 0 (-1) (-1) le_rfl
    (by norm_num)

/-- C8 witness: two keyframes at offsets 0 and 3; splitting before 1 selects
offset 0, splitting before 4 selects offset 3. -/
theorem select_keyframe_start_monotone_witness :
    (1 : ℤ) < 4 ∧
    (selectPacketsForSplit [⟨3, true, none, none⟩, ⟨3, true, none, none⟩] 1).2 ≤
      (selectPacketsForSplit [⟨3, true, none, none⟩, ⟨3, true, none, none⟩] 4).2 :=
  ⟨by decide,
    select_keyframe_start_monotone [⟨3, true, none, none⟩, ⟨3, true, none, none⟩] 1 4
      (by decide)⟩
